import Mathlib

/-!
Verification of the QA-evaluation-framework data-curation pipeline
(`routines.py` and `utils/data_utils.py`).

The pipeline's record types are Python dicts; we embed them as structures.
Python exceptions are embedded as `Option`/`Except`: a function that can
raise returns `none`/`.error` on the raising inputs.  Machine-level
details (pickling, file paths, logging, tqdm) are I/O plumbing outside
the embedded core; the artifact store is modelled as explicit state.
-/

/-- A short-answer span: `{start_token, end_token}`, a half-open token-index
range into the whitespace tokenization of `document_text`. -/
structure Span where
  start_token : Nat
  end_token : Nat
deriving DecidableEq

/-- An annotation object as the pipeline reads it: only its `short_answers`
list is ever inspected. -/
structure Ann where
  short_answers : List Span
deriving DecidableEq

/-- A raw NQ-simplified record (input of the preparation pipeline). -/
structure RawRecord where
  example_id : Nat
  document_url : String
  document_text : String
  question_text : String
  annotations : List Ann
deriving DecidableEq

/-- A clean record as built by `extract_data`. -/
structure CleanRecord where
  example_id : Nat
  document_title : String
  document_url : String
  question_text : String
  short_answer : String
  document_text_clean : String
deriving DecidableEq

/-- An evidence-corpus document as built by `compile_evidence_corpus`. -/
structure EvidenceDoc where
  document_title : String
  document_url : String
  document_text_clean : String
deriving DecidableEq

/-- A QA record as built by `compile_qa_records`: a clean record minus the
`document_text_clean` key. -/
structure QARecord where
  example_id : Nat
  document_title : String
  document_url : String
  question_text : String
  short_answer : String
deriving DecidableEq

/-- Python's `needle in hay` on strings (contiguous-substring test),
over the character lists. -/
def strIn (needle hay : List Char) : Bool :=
  match hay with
  | [] => needle.isEmpty
  | _ :: t => needle.isPrefixOf hay || strIn needle t

/-- Python's `needle in hay` on `String`s. -/
def pyInStr (needle hay : String) : Bool :=
  strIn needle.toList hay.toList

/-- Python's list slice `l[i:j]` for non-negative `i`, `j` (out-of-range
indices clamp; an empty or inverted range yields `[]`). -/
def pySlice (l : List α) (i j : Nat) : List α :=
  (l.drop i).take (j - i)

/-- Python's `text.split(" ")` over the character list: split on every
single space, keeping empty pieces (`"".split(" ") == ['']`). -/
def splitSp : List Char → List (List Char)
  | [] => [[]]
  | c :: cs =>
    match splitSp cs with
    | [] => [[]]
    | w :: ws => if c = ' ' then [] :: w :: ws else (c :: w) :: ws

/-- Python's `" ".join(words)` over character lists. -/
def joinSp : List (List Char) → List Char
  | [] => []
  | [w] => w
  | w :: ws => w ++ ' ' :: joinSp ws

namespace DataPreprocessingRoutine

/-- `rec.copy()` followed by `new_rec['annotations'][0]['short_answers'] = temp`
where `temp = [short_answers[0]]`: the record with its first annotation's
short-answer list truncated to the (existing) first span. -/
def truncFirst (r : RawRecord) : RawRecord :=
  match r.annotations with
  | [] => r
  | a :: rest => { r with annotations := { a with short_answers := a.short_answers.take 1 } :: rest }

/-- `DataPreprocessingRoutine.filter_nq_train_data` (routines.py 75-135),
as a function of the mode flag and the loaded data.  Accessing
`rec['annotations'][0]` raises `IndexError` when `annotations` is empty,
aborting the whole call: embedded as `none`. -/
def filter_nq_train_data (mode : Bool) : List RawRecord → Option (List RawRecord)
  | [] => some []
  | r :: rs =>
    match r.annotations with
    | [] => none
    | a :: _ =>
      match filter_nq_train_data mode rs with
      | none => none
      | some out =>
        if a.short_answers.isEmpty && mode then some out
        else if 1 < a.short_answers.length then some (truncFirst r :: out)
        else some (r :: out)

/-- The post-run contents of `filter_nq_train_data`'s INPUT list.
`rec.copy()` is a shallow dict copy, so `new_rec['annotations']` aliases
`rec['annotations']`; the assignment
`new_rec['annotations'][0]['short_answers'] = temp` therefore mutates the
input record's first annotation in place whenever the multi-answer branch
runs.  Records taking the other branches are untouched. -/
def filter_nq_post (mode : Bool) : List RawRecord → Option (List RawRecord)
  | [] => some []
  | r :: rs =>
    match r.annotations with
    | [] => none
    | a :: _ =>
      match filter_nq_post mode rs with
      | none => none
      | some post =>
        if a.short_answers.isEmpty && mode then some (r :: post)
        else if 1 < a.short_answers.length then some (truncFirst r :: post)
        else some (r :: post)

/-- `DataPreprocessingRoutine.get_short_answer_from_span` (routines.py
240-264).  `example['annotations'][0]` raises `IndexError` when the
annotation list is empty (`none`); otherwise, if `len(sa_field) >= 1` the
first span is joined over the tokenization, else the answer is `''`. -/
def get_short_answer_from_span (r : RawRecord) : Option String :=
  match r.annotations with
  | [] => none
  | a :: _ =>
    match a.short_answers with
    | [] => some ""
    | s :: _ =>
      some (String.mk (joinSp
        (pySlice (splitSp r.document_text.toList) s.start_token s.end_token)))

end DataPreprocessingRoutine

/-- One `re.sub('<.*?>', '', text)` scanning step.  `re.sub` walks the text
left to right; at a `<` the non-greedy pattern matches up to the first
following `>` provided no newline intervenes (`.` excludes `'\n'`), and
scanning resumes after the removed match; if no such `>` exists, the match
at the `<` fails, the `<` is emitted, and — since every candidate start
inside the failed stretch fails for the same missing `>` — the stretch up
to the blocking newline (or the end) is emitted verbatim.  `buf` holds, in
reverse, the characters of a tentative match started at a `<`. -/
def cleanStep : Option (List Char) → List Char → List Char
  | none, [] => []
  | some buf, [] => buf.reverse
  | none, c :: cs =>
    if c = '<' then cleanStep (some [c]) cs
    else c :: cleanStep none cs
  | some buf, c :: cs =>
    if c = '>' then cleanStep none cs
    else if c = '\n' then buf.reverse ++ '\n' :: cleanStep none cs
    else cleanStep (some (c :: buf)) cs

/-- `clean_document_text` (routines.py 266-282 and data_utils.py 173-188,
identical bodies): strip every `<.*?>` match from the text. -/
def clean_document_text (text : String) : String :=
  String.mk (cleanStep none text.toList)

/-- Matching the tail of `title=(.*?)&amp` from a given position: the
capture group is the minimal run of non-newline characters followed by the
literal `&amp`; `none` when no `&amp` is reachable without crossing a
newline (the overall match attempt at this start fails). -/
def matchTitleTail : List Char → Option (List Char)
  | [] => none
  | c :: cs =>
    if ("&amp".toList).isPrefixOf (c :: cs) then some []
    else if c = '\n' then none
    else (matchTitleTail cs).map (c :: ·)

/-- `re.search('title=(.*?)&amp', url)`: try each start position left to
right; at a position where the literal `title=` matches, succeed with the
minimal capture if `&amp` follows, otherwise keep scanning. -/
def searchTitle : List Char → Option String
  | [] => none
  | c :: cs =>
    if ("title=".toList).isPrefixOf (c :: cs) then
      match matchTitleTail ((c :: cs).drop 6) with
      | some cap => some (String.mk cap)
      | none => searchTitle cs
    else searchTitle cs

/-- `extract_wiki_title` (routines.py 284-304 and data_utils.py 191-210,
identical bodies): regex-extract the title, falling back to the sentinel
when `re.search` returns `None` (the `AttributeError` handler). -/
def extract_wiki_title (document_url : String) : String :=
  match searchTitle document_url.toList with
  | some title => title
  | none => "No Title Found"

namespace DataPreprocessingRoutine

/-- The body of `extract_data`'s per-record `try` block (routines.py
163-184): derive the six fields, skip the record (`none`) when the
resolved short answer is not a substring of the cleaned text, and also
skip it when deriving a field raises (the `except` clause catches the
`IndexError` from `get_short_answer_from_span` on a record with no
annotations). -/
def extractRecord (r : RawRecord) : Option CleanRecord :=
  match get_short_answer_from_span r with
  | none => none
  | some short_answer =>
    let document_text_clean := clean_document_text r.document_text
    let document_title := extract_wiki_title r.document_url
    if pyInStr short_answer document_text_clean then
      some { example_id := r.example_id
             document_title := document_title
             document_url := r.document_url
             question_text := r.question_text
             short_answer := short_answer
             document_text_clean := document_text_clean }
    else none

/-- `DataPreprocessingRoutine.extract_data` (routines.py 138-196): the
per-record loop appending each surviving clean record. -/
def extract_data (data : List RawRecord) : List CleanRecord :=
  data.filterMap extractRecord

/-- `drop_longer_answers` (routines.py 198-229): keep records whose
`short_answer.split(' ')` has at most 5 elements. -/
def drop_longer_answers (data : List CleanRecord) : List CleanRecord :=
  data.filter (fun r => decide ((splitSp r.short_answer.toList).length ≤ 5))

/-- The extraction-stage pipeline run by `DataPreprocessingRoutine.run`
(routines.py 52-55) after loading: filter, extract, drop long answers.
`none` when the filter raises out of the run. -/
def pipeline (mode : Bool) (raws : List RawRecord) : Option (List CleanRecord) :=
  match filter_nq_train_data mode raws with
  | none => none
  | some filtered => some (drop_longer_answers (extract_data filtered))

end DataPreprocessingRoutine

namespace DataUtils

/-- `get_short_answer_from_span` (data_utils.py 152-170): unlike the
routine's static method, it indexes `short_answers[0]` without a length
check, so it raises `IndexError` (`none`) when the first annotation's
`short_answers` is empty (and when `annotations` is empty). -/
def get_short_answer_from_span (r : RawRecord) : Option String :=
  match r.annotations with
  | [] => none
  | a :: _ =>
    match a.short_answers with
    | [] => none
    | s :: _ =>
      some (String.mk (joinSp
        (pySlice (splitSp r.document_text.toList) s.start_token s.end_token)))

/-- One record of `data_utils.extract_data` (data_utils.py 236-258): there
is no `try/except`, so an exception while deriving a field propagates
(outer `none`); a record failing only the substring consistency check is
skipped (`some none`); otherwise the clean record is produced. -/
def extractRecordU (r : RawRecord) : Option (Option CleanRecord) :=
  match get_short_answer_from_span r with
  | none => none
  | some short_answer =>
    let document_text_clean := clean_document_text r.document_text
    let document_title := extract_wiki_title r.document_url
    if pyInStr short_answer document_text_clean then
      some (some { example_id := r.example_id
                   document_title := document_title
                   document_url := r.document_url
                   question_text := r.question_text
                   short_answer := short_answer
                   document_text_clean := document_text_clean })
    else some none

/-- `data_utils.extract_data` (data_utils.py 213-262): the same per-record
loop, but an exception raised while deriving any field aborts the whole
call (`none`) because no handler surrounds the loop body. -/
def extract_data : List RawRecord → Option (List CleanRecord)
  | [] => some []
  | r :: rs =>
    match extractRecordU r with
    | none => none
    | some o =>
      match extract_data rs with
      | none => none
      | some rest => some (o.toList ++ rest)

end DataUtils

namespace DataCompilationRoutine

/-- The loop of `compile_evidence_corpus` (routines.py 379-397) with the
`unique_titles` accumulator made explicit: emit a document for each record
whose title has not been seen, appending the title to the seen list. -/
def compileAux (unique_titles : List String) : List CleanRecord → List EvidenceDoc
  | [] => []
  | r :: rs =>
    if unique_titles.contains r.document_title then compileAux unique_titles rs
    else { document_title := r.document_title
           document_url := r.document_url
           document_text_clean := r.document_text_clean }
      :: compileAux (unique_titles ++ [r.document_title]) rs

/-- `DataCompilationRoutine.compile_evidence_corpus` (routines.py 365-399). -/
def compile_evidence_corpus (data : List CleanRecord) : List EvidenceDoc :=
  compileAux [] data

/-- `DataCompilationRoutine.compile_qa_records` (routines.py 401-424): per
record, the dict comprehension keeping every key except
`document_text_clean`. -/
def compile_qa_records : List CleanRecord → List QARecord
  | [] => []
  | r :: rs =>
    { example_id := r.example_id
      document_title := r.document_title
      document_url := r.document_url
      question_text := r.question_text
      short_answer := r.short_answer } :: compile_qa_records rs

end DataCompilationRoutine

/-- The artifact store of the compilation orchestrator: the contents (if
present) of `evidence_corpus{ext}.pkl` and `qa_records{ext}.pkl`. -/
structure CompileStore where
  evidence_corpus : Option (List EvidenceDoc)
  qa_records : Option (List QARecord)
deriving DecidableEq

/-- The artifact store of the preparation orchestrator: the contents (if
present) of `extracted_clean_data{ext}.pkl`. -/
structure PrepStore where
  extracted_clean_data : Option (List CleanRecord)
deriving DecidableEq

namespace DataCompilationRoutine

/-- `DataCompilationRoutine.run` (routines.py 331-353) over the loaded
clean data: the guard is the source's literal
`os.path.exists(outfile_ec) or os.path.exists(outfile_ec)` — the
evidence-corpus path tested twice, the qa-records path never — and on
passing it both artifacts are (over)written via pickle `'wb'`. -/
def run (st : CompileStore) (data : List CleanRecord) : Except String CompileStore :=
  if st.evidence_corpus.isSome || st.evidence_corpus.isSome then
    Except.error "These files have already been created. Please delete both to re-run."
  else
    Except.ok { evidence_corpus := some (compile_evidence_corpus data)
                qa_records := some (compile_qa_records data) }

end DataCompilationRoutine

namespace DataPreprocessingRoutine

/-- `DataPreprocessingRoutine.run` (routines.py 40-63) over the loaded raw
data: refuse when the output artifact exists, run the pipeline (an
uncaught `IndexError` from the filter propagates), then write the
artifact. -/
def run (st : PrepStore) (mode : Bool) (raws : List RawRecord) : Except String PrepStore :=
  if st.extracted_clean_data.isSome then
    Except.error "This file has already been created. Please delete it if you wish to recreate."
  else
    match pipeline mode raws with
    | none => Except.error "IndexError: list index out of range"
    | some d => Except.ok { extracted_clean_data := some d }

end DataPreprocessingRoutine


-- ------------------------------------------------------------------
-- Admissibility filter: lemmas and claims C3, C4, C8
-- ------------------------------------------------------------------

open DataPreprocessingRoutine in
theorem filter_true_out_nonempty {raws out : List RawRecord}
    (h : filter_nq_train_data true raws = some out) :
    ∀ x ∈ out, ∃ a t, x.annotations = a :: t ∧ a.short_answers ≠ [] := by
  induction raws generalizing out with
  | nil =>
    simp only [filter_nq_train_data] at h
    cases h
    intro x hx
    cases hx
  | cons r rs ih =>
    simp only [filter_nq_train_data] at h
    cases hann : r.annotations with
    | nil => rw [hann] at h; cases h
    | cons a t =>
      rw [hann] at h
      cases hrec : filter_nq_train_data true rs with
      | none => rw [hrec] at h; cases h
      | some out' =>
        rw [hrec] at h
        simp only [Bool.and_true] at h
        by_cases hemp : a.short_answers.isEmpty
        · rw [if_pos hemp] at h
          cases h
          exact fun x hx => ih hrec x hx
        · rw [if_neg hemp] at h
          by_cases hlen : 1 < a.short_answers.length
          · rw [if_pos hlen] at h
            cases h
            intro x hx
            rcases List.mem_cons.mp hx with rfl | hx'
            · refine ⟨⟨a.short_answers.take 1⟩, t, ?_, ?_⟩
              · simp [truncFirst, hann]
              · cases hsa : a.short_answers with
                | nil => rw [hsa] at hlen; simp at hlen
                | cons s rest => simp [hsa]
            · exact ih hrec x hx'
          · rw [if_neg hlen] at h
            cases h
            intro x hx
            rcases List.mem_cons.mp hx with rfl | hx'
            · refine ⟨a, t, hann, ?_⟩
              intro hcontra
              exact hemp (by simp [hcontra])
            · exact ih hrec x hx'

open DataPreprocessingRoutine in
theorem filter_cons_inv {mode : Bool} {r : RawRecord} {rs out : List RawRecord}
    (h : filter_nq_train_data mode (r :: rs) = some out) :
    ∃ a t out', r.annotations = a :: t ∧ filter_nq_train_data mode rs = some out' ∧
      (((a.short_answers.isEmpty && mode) = true ∧ out = out') ∨
       ((a.short_answers.isEmpty && mode) = false ∧ 1 < a.short_answers.length ∧
         out = truncFirst r :: out') ∨
       ((a.short_answers.isEmpty && mode) = false ∧ a.short_answers.length ≤ 1 ∧
         out = r :: out')) := by
  simp only [filter_nq_train_data] at h
  split at h
  next heq => exact absurd h (by simp)
  next a t heq =>
    split at h
    next hrec => exact absurd h (by simp)
    next out' hrec =>
      refine ⟨a, t, out', heq, hrec, ?_⟩
      split at h
      next hc =>
        exact Or.inl ⟨hc, (Option.some.injEq _ _ ▸ h).symm⟩
      next hc =>
        split at h
        next hlen =>
          exact Or.inr (Or.inl ⟨by simpa using hc, hlen, (Option.some.injEq _ _ ▸ h).symm⟩)
        next hlen =>
          exact Or.inr (Or.inr ⟨by simpa using hc, by omega, (Option.some.injEq _ _ ▸ h).symm⟩)

open DataPreprocessingRoutine in
theorem filter_false_retains {raws out : List RawRecord}
    (h : filter_nq_train_data false raws = some out) :
    ∀ r ∈ raws, ∀ a, r.annotations.head? = some a → a.short_answers = [] → r ∈ out := by
  induction raws generalizing out with
  | nil => intro r hr; cases hr
  | cons r' rs ih =>
    obtain ⟨a, t, out', hann, hrec, hcases⟩ := filter_cons_inv h
    intro r hr a' hhead hsa
    rcases List.mem_cons.mp hr with rfl | hr'
    · rw [hann] at hhead
      simp only [List.head?_cons, Option.some.injEq] at hhead
      subst hhead
      rcases hcases with ⟨hc, _⟩ | ⟨_, hlen, _⟩ | ⟨_, _, hout⟩
      · simp at hc
      · rw [hsa] at hlen; simp at hlen
      · rw [hout]; exact List.mem_cons_self _ _
    · have hmem := ih hrec r hr' a' hhead hsa
      rcases hcases with ⟨_, hout⟩ | ⟨_, _, hout⟩ | ⟨_, _, hout⟩ <;>
        rw [hout] <;> first
          | exact hmem
          | exact List.mem_cons_of_mem _ hmem

open DataPreprocessingRoutine in
theorem filter_out_le_one {mode : Bool} {raws out : List RawRecord}
    (h : filter_nq_train_data mode raws = some out) :
    ∀ x ∈ out, ∃ a t, x.annotations = a :: t ∧ a.short_answers.length ≤ 1 := by
  induction raws generalizing out with
  | nil =>
    simp only [filter_nq_train_data] at h
    cases h
    intro x hx
    cases hx
  | cons r rs ih =>
    obtain ⟨a, t, out', hann, hrec, hcases⟩ := filter_cons_inv h
    intro x hx
    rcases hcases with ⟨_, hout⟩ | ⟨_, hlen, hout⟩ | ⟨_, hlen, hout⟩
    · exact ih hrec x (hout ▸ hx)
    · rw [hout] at hx
      rcases List.mem_cons.mp hx with rfl | hx'
      · refine ⟨⟨a.short_answers.take 1⟩, t, by simp [truncFirst, hann], ?_⟩
        simp [List.length_take]
      · exact ih hrec x hx'
    · rw [hout] at hx
      rcases List.mem_cons.mp hx with rfl | hx'
      · exact ⟨a, t, hann, hlen⟩
      · exact ih hrec x hx'

open DataPreprocessingRoutine in
theorem filter_multi_truncated {mode : Bool} {raws out : List RawRecord}
    (h : filter_nq_train_data mode raws = some out) :
    ∀ r ∈ raws, ∀ a s s' t, r.annotations.head? = some a →
      a.short_answers = s :: s' :: t →
      ∃ rest, r.annotations = a :: rest ∧
        { r with annotations := ⟨[s]⟩ :: rest } ∈ out := by
  induction raws generalizing out with
  | nil => intro r hr; cases hr
  | cons r' rs ih =>
    obtain ⟨a0, t0, out', hann, hrec, hcases⟩ := filter_cons_inv h
    intro r hr a s s' t2 hhead hsa
    rcases List.mem_cons.mp hr with rfl | hr'
    · rw [hann] at hhead
      simp only [List.head?_cons, Option.some.injEq] at hhead
      subst hhead
      rcases hcases with ⟨hc, _⟩ | ⟨_, _, hout⟩ | ⟨_, hlen, _⟩
      · rw [hsa] at hc; simp at hc
      · refine ⟨t0, hann, ?_⟩
        rw [hout]
        have : truncFirst r = { r with annotations := ⟨[s]⟩ :: t0 } := by
          simp [truncFirst, hann, hsa]
        rw [← this]
        exact List.mem_cons_self _ _
      · rw [hsa] at hlen; simp at hlen
    · obtain ⟨rest, hr3, hmem'⟩ := ih hrec r hr' a s s' t2 hhead hsa
      refine ⟨rest, hr3, ?_⟩
      rcases hcases with ⟨_, hout⟩ | ⟨_, _, hout⟩ | ⟨_, _, hout⟩ <;>
        rw [hout] <;> first
          | exact hmem'
          | exact List.mem_cons_of_mem _ hmem'

/-- C3: when the strict flag is true, every record whose first annotation has
an empty `short_answers` list is absent from the admissibility filter's
output; when the flag is false, every such record is retained. -/
theorem claim_C3 (raws : List RawRecord) :
    (∀ out, DataPreprocessingRoutine.filter_nq_train_data true raws = some out →
      ∀ r ∈ raws, ∀ a, r.annotations.head? = some a → a.short_answers = [] → r ∉ out) ∧
    (∀ out, DataPreprocessingRoutine.filter_nq_train_data false raws = some out →
      ∀ r ∈ raws, ∀ a, r.annotations.head? = some a → a.short_answers = [] → r ∈ out) := by
  constructor
  · intro out h r _ a hhead hsa hmem
    obtain ⟨a', t', hann', hne⟩ := filter_true_out_nonempty h r hmem
    rw [hann'] at hhead
    simp only [List.head?_cons, Option.some.injEq] at hhead
    subst hhead
    exact hne hsa
  · intro out h r hr a hhead hsa
    exact filter_false_retains h r hr a hhead hsa

/-- Witness for C3 at a one-record input with an empty short-answer list:
dropped in strict mode (output is `[]`), retained in non-strict mode. -/
theorem claim_C3_witness :
    (⟨1, "u", "d", "q", [⟨[]⟩]⟩ : RawRecord) ∉ ([] : List RawRecord) ∧
    (⟨1, "u", "d", "q", [⟨[]⟩]⟩ : RawRecord) ∈ [(⟨1, "u", "d", "q", [⟨[]⟩]⟩ : RawRecord)] :=
  ⟨(claim_C3 [⟨1, "u", "d", "q", [⟨[]⟩]⟩]).1 [] (by decide) _ (by simp) ⟨[]⟩ rfl rfl,
   (claim_C3 [⟨1, "u", "d", "q", [⟨[]⟩]⟩]).2 [⟨1, "u", "d", "q", [⟨[]⟩]⟩] (by decide) _
     (by simp) ⟨[]⟩ rfl rfl⟩

/-- C4: for both mode settings, every record in the admissibility filter's
output has a first annotation with at most one short-answer span, and a
record that entered with more than one span leaves with exactly its
original first span (all other fields unchanged). -/
theorem claim_C4 (mode : Bool) (raws out : List RawRecord)
    (h : DataPreprocessingRoutine.filter_nq_train_data mode raws = some out) :
    (∀ x ∈ out, ∃ a t, x.annotations = a :: t ∧ a.short_answers.length ≤ 1) ∧
    (∀ r ∈ raws, ∀ a s s' t, r.annotations.head? = some a →
      a.short_answers = s :: s' :: t →
      ∃ rest, r.annotations = a :: rest ∧
        { r with annotations := ⟨[s]⟩ :: rest } ∈ out) :=
  ⟨filter_out_le_one h, filter_multi_truncated h⟩

/-- Witness for C4 at a one-record input with a two-span first annotation. -/
theorem claim_C4_witness :
    ∃ rest, ([⟨[⟨0, 1⟩, ⟨1, 2⟩]⟩] : List Ann) = ⟨[⟨0, 1⟩, ⟨1, 2⟩]⟩ :: rest ∧
      ({ example_id := 2, document_url := "u", document_text := "d", question_text := "q",
         annotations := ⟨[⟨0, 1⟩]⟩ :: rest } : RawRecord) ∈
        [({ example_id := 2, document_url := "u", document_text := "d", question_text := "q",
            annotations := [⟨[⟨0, 1⟩]⟩] } : RawRecord)] :=
  (claim_C4 false [⟨2, "u", "d", "q", [⟨[⟨0, 1⟩, ⟨1, 2⟩]⟩]⟩]
      [⟨2, "u", "d", "q", [⟨[⟨0, 1⟩]⟩]⟩] (by decide)).2
    ⟨2, "u", "d", "q", [⟨[⟨0, 1⟩, ⟨1, 2⟩]⟩]⟩ (by simp) ⟨[⟨0, 1⟩, ⟨1, 2⟩]⟩ ⟨0, 1⟩ ⟨1, 2⟩ [] rfl rfl

/-- C8: the admissibility filter DOES mutate its input.  `rec.copy()` is a
shallow copy, so truncating `new_rec['annotations'][0]['short_answers']`
rewrites the input record's own first annotation: after running the filter
on a record with two spans, the input list's record carries only the first
span, not its original annotations. -/
theorem claim_C8 :
    DataPreprocessingRoutine.filter_nq_post true
        [⟨8, "u", "a b", "q", [⟨[⟨0, 1⟩, ⟨1, 2⟩]⟩]⟩] =
      some [⟨8, "u", "a b", "q", [⟨[⟨0, 1⟩]⟩]⟩] ∧
    DataPreprocessingRoutine.filter_nq_post true
        [⟨8, "u", "a b", "q", [⟨[⟨0, 1⟩, ⟨1, 2⟩]⟩]⟩] ≠
      some [⟨8, "u", "a b", "q", [⟨[⟨0, 1⟩, ⟨1, 2⟩]⟩]⟩] := by
  exact ⟨by decide, by decide⟩

-- ------------------------------------------------------------------
-- Extraction stage: lemmas and claims C1, C5, C9, C10
-- ------------------------------------------------------------------

open DataPreprocessingRoutine in
/-- A clean record produced by `extractRecord` passed the consistency
check: its short answer is a Python-substring of its cleaned text. -/
theorem extractRecord_substr {r : RawRecord} {c : CleanRecord}
    (h : DataPreprocessingRoutine.extractRecord r = some c) :
    pyInStr c.short_answer c.document_text_clean = true := by
  simp only [DataPreprocessingRoutine.extractRecord] at h
  split at h
  · cases h
  next sa hsa =>
    split at h
    next hin =>
      cases h
      exact hin
    next hin => cases h

/-- C1 (amended): every clean record in the extraction stage's final
output has a `short_answer` that is a (possibly empty) Python-substring
of its `document_text_clean`, splitting into at most 5 space-separated
pieces; this holds for both mode settings. -/
theorem claim_C1 (mode : Bool) (raws : List RawRecord) (out : List CleanRecord)
    (h : DataPreprocessingRoutine.pipeline mode raws = some out) :
    ∀ c ∈ out, pyInStr c.short_answer c.document_text_clean = true ∧
      (splitSp c.short_answer.toList).length ≤ 5 := by
  simp only [DataPreprocessingRoutine.pipeline] at h
  split at h
  · cases h
  next fd hfd =>
    cases h
    intro c hc
    simp only [DataPreprocessingRoutine.drop_longer_answers, List.mem_filter,
      decide_eq_true_eq] at hc
    obtain ⟨hc', hlen⟩ := hc
    simp only [DataPreprocessingRoutine.extract_data, List.mem_filterMap] at hc'
    obtain ⟨r, _, hr⟩ := hc'
    exact ⟨extractRecord_substr hr, hlen⟩

/-- Counterexample to C1 as stated: a span of width zero resolves to the
empty short answer, which passes the substring check (Python `'' in s` is
true) and the length filter, so the final output can contain a record
whose `short_answer` is empty — it is not a NON-empty substring. -/
theorem claim_C1_counterexample :
    DataPreprocessingRoutine.pipeline true [⟨1, "u", "a", "q", [⟨[⟨0, 0⟩]⟩]⟩] =
      some [⟨1, "No Title Found", "u", "q", "", "a"⟩] ∧
    (⟨1, "No Title Found", "u", "q", "", "a"⟩ : CleanRecord).short_answer = "" :=
  ⟨by decide, rfl⟩

/-- Witness for C1 at a pipeline run producing one record. -/
theorem claim_C1_witness :
    pyInStr "a" "a b" = true ∧ (splitSp ("a" : String).toList).length ≤ 5 :=
  claim_C1 true [⟨1, "u", "a b", "q", [⟨[⟨0, 1⟩]⟩]⟩]
    [⟨1, "No Title Found", "u", "q", "a", "a b"⟩] (by decide)
    ⟨1, "No Title Found", "u", "q", "a", "a b"⟩ (by decide)

/-- C5 (amended): the routine's `extract_data` is record-isolated — a
record whose field derivation raises (so that `extractRecord` yields
`none`) is skipped and every other record is processed as if it were
absent.  (As stated the claim is false of the module-level
`data_utils.extract_data`, which has no per-record handler; see the
counterexample.) -/
theorem claim_C5 (xs ys : List RawRecord) (b : RawRecord)
    (hb : DataPreprocessingRoutine.extractRecord b = none) :
    DataPreprocessingRoutine.extract_data (xs ++ b :: ys) =
      DataPreprocessingRoutine.extract_data xs ++ DataPreprocessingRoutine.extract_data ys := by
  simp only [DataPreprocessingRoutine.extract_data, List.filterMap_append,
    List.filterMap_cons, hb]

/-- Counterexample to C5 as stated for `data_utils.extract_data`: the
first record's empty `short_answers` makes `get_short_answer_from_span`
raise `IndexError`, aborting the whole batch — the second record, which
extracts fine on its own, is lost. -/
theorem claim_C5_counterexample :
    DataUtils.extract_data
        [⟨5, "u", "a b", "q", [⟨[]⟩]⟩, ⟨6, "u", "a b", "q", [⟨[⟨0, 1⟩]⟩]⟩] = none ∧
    DataUtils.extract_data [⟨6, "u", "a b", "q", [⟨[⟨0, 1⟩]⟩]⟩] =
      some [⟨6, "No Title Found", "u", "q", "a", "a b"⟩] :=
  ⟨by decide, by decide⟩

/-- Witness for C5: a record with no annotations (whose extraction
raises) sits between two good records and only it is skipped. -/
theorem claim_C5_witness :
    DataPreprocessingRoutine.extract_data
        ([⟨6, "u", "a b", "q", [⟨[⟨0, 1⟩]⟩]⟩] ++
          ⟨5, "u", "c", "q", []⟩ :: [⟨7, "u", "a b", "q", [⟨[⟨1, 2⟩]⟩]⟩]) =
      DataPreprocessingRoutine.extract_data [⟨6, "u", "a b", "q", [⟨[⟨0, 1⟩]⟩]⟩] ++
        DataPreprocessingRoutine.extract_data [⟨7, "u", "a b", "q", [⟨[⟨1, 2⟩]⟩]⟩] :=
  claim_C5 _ _ _ (by decide)

/-- C9 (amended): for every record with at least one annotation,
short-answer span resolution succeeds: with no span it returns `''`, and
with a first span it returns the single-space join of the tokenization of
`document_text` over `[start_token, end_token)` (out-of-range indices
truncate to an empty or shorter join rather than raising). -/
theorem claim_C9 (r : RawRecord) (a : Ann) (h : r.annotations.head? = some a) :
    (a.short_answers = [] →
      DataPreprocessingRoutine.get_short_answer_from_span r = some "") ∧
    (∀ s t, a.short_answers = s :: t →
      DataPreprocessingRoutine.get_short_answer_from_span r =
        some (String.mk (joinSp (pySlice (splitSp r.document_text.toList)
          s.start_token s.end_token)))) := by
  cases hann : r.annotations with
  | nil => rw [hann] at h; cases h
  | cons a0 t0 =>
    rw [hann] at h
    simp only [List.head?_cons, Option.some.injEq] at h
    subst h
    constructor
    · intro hsa
      simp [DataPreprocessingRoutine.get_short_answer_from_span, hann, hsa]
    · intro s t hsa
      simp [DataPreprocessingRoutine.get_short_answer_from_span, hann, hsa]

/-- Counterexample to C9 as stated: on a record with an empty
`annotations` list (a record with "no span"), resolution raises
`IndexError` instead of returning the empty string. -/
theorem claim_C9_counterexample :
    DataPreprocessingRoutine.get_short_answer_from_span ⟨9, "u", "a b", "q", []⟩ = none := by
  decide

/-- Witness for C9: the spec's example scenario — span `[1, 2)` into
`"The cat sat on the mat"` resolves to `"cat"`. -/
theorem claim_C9_witness :
    DataPreprocessingRoutine.get_short_answer_from_span
        ⟨1, "u", "The cat sat on the mat", "q", [⟨[⟨1, 2⟩]⟩]⟩ =
      some (String.mk (joinSp (pySlice
        (splitSp ("The cat sat on the mat" : String).toList) 1 2))) :=
  (claim_C9 ⟨1, "u", "The cat sat on the mat", "q", [⟨[⟨1, 2⟩]⟩]⟩ ⟨[⟨1, 2⟩]⟩ rfl).2
    ⟨1, 2⟩ [] rfl

/-- C10 (amended): wherever the module-level `data_utils` span resolver
succeeds, the routine's static-method resolver succeeds with the same
string.  (They are NOT equal on every record where either succeeds: on an
empty `short_answers` list the routine returns `''` while the module
function raises — see the counterexample.) -/
theorem claim_C10 (r : RawRecord) (s : String)
    (h : DataUtils.get_short_answer_from_span r = some s) :
    DataPreprocessingRoutine.get_short_answer_from_span r = some s := by
  cases hann : r.annotations with
  | nil => simp [DataUtils.get_short_answer_from_span, hann] at h
  | cons a t =>
    cases hsa : a.short_answers with
    | nil => simp [DataUtils.get_short_answer_from_span, hann, hsa] at h
    | cons s0 t0 =>
      simp only [DataUtils.get_short_answer_from_span, hann, hsa] at h
      simp only [DataPreprocessingRoutine.get_short_answer_from_span, hann, hsa]
      exact h

/-- Counterexample to C10 as stated: on a record whose first annotation
has an empty `short_answers` list, the routine resolver succeeds with
`''` while the `data_utils` resolver raises `IndexError` — they do not
return the same string even though one of them succeeds. -/
theorem claim_C10_counterexample :
    DataPreprocessingRoutine.get_short_answer_from_span ⟨10, "u", "a", "q", [⟨[]⟩]⟩ =
      some "" ∧
    DataUtils.get_short_answer_from_span ⟨10, "u", "a", "q", [⟨[]⟩]⟩ = none :=
  ⟨by decide, by decide⟩

/-- Witness for C10 at a record on which both resolvers succeed. -/
theorem claim_C10_witness :
    DataPreprocessingRoutine.get_short_answer_from_span
        ⟨11, "u", "a b c", "q", [⟨[⟨0, 2⟩]⟩]⟩ = some "a b" :=
  claim_C10 ⟨11, "u", "a b c", "q", [⟨[⟨0, 2⟩]⟩]⟩ "a b" (by decide)

-- ------------------------------------------------------------------
-- Compilation stage: lemmas and claims C2, C7, C6
-- ------------------------------------------------------------------

/-- The spec's description of the evidence-corpus title order: iterate in
input order, emit a title the first time it is seen, skip it afterwards
(first-occurrence order). -/
def firstOccurrenceTitles (seen : List String) : List String → List String
  | [] => []
  | t :: ts =>
    if seen.contains t then firstOccurrenceTitles seen ts
    else t :: firstOccurrenceTitles (seen ++ [t]) ts

open DataCompilationRoutine in
/-- The titles of the compiled corpus are the input titles in
first-occurrence order. -/
theorem compileAux_titles (seen : List String) (l : List CleanRecord) :
    (compileAux seen l).map (·.document_title) =
      firstOccurrenceTitles seen (l.map (·.document_title)) := by
  induction l generalizing seen with
  | nil => rfl
  | cons r rs ih =>
    simp only [compileAux, List.map_cons, firstOccurrenceTitles]
    by_cases hc : seen.contains r.document_title
    · rw [if_pos hc, if_pos hc]
      exact ih seen
    · rw [if_neg hc, if_neg hc]
      simp only [List.map_cons, List.cons.injEq, true_and]
      exact ih (seen ++ [r.document_title])

/-- A title emitted by `firstOccurrenceTitles` was not already seen. -/
theorem fot_not_seen :
    ∀ l seen t, t ∈ firstOccurrenceTitles seen l → t ∉ seen := by
  intro l
  induction l with
  | nil =>
    intro seen t h
    cases h
  | cons t0 ts ih =>
    intro seen t h
    simp only [firstOccurrenceTitles] at h
    by_cases hc : seen.contains t0
    · rw [if_pos hc] at h
      exact ih seen t h
    · rw [if_neg hc] at h
      rcases List.mem_cons.mp h with rfl | h'
      · simpa [List.contains, List.elem_eq_mem] using hc
      · have hmem := ih (seen ++ [t0]) t h'
        intro hcontra
        exact hmem (List.mem_append_left _ hcontra)

/-- `firstOccurrenceTitles` emits pairwise-distinct titles. -/
theorem fot_nodup : ∀ l seen, (firstOccurrenceTitles seen l).Nodup := by
  intro l
  induction l with
  | nil => intro seen; exact List.nodup_nil
  | cons t0 ts ih =>
    intro seen
    simp only [firstOccurrenceTitles]
    by_cases hc : seen.contains t0
    · rw [if_pos hc]
      exact ih seen
    · rw [if_neg hc]
      refine List.nodup_cons.mpr ⟨?_, ih (seen ++ [t0])⟩
      intro hmem
      exact fot_not_seen ts (seen ++ [t0]) t0 hmem (List.mem_append_right _ (by simp))

open DataCompilationRoutine in
/-- Every emitted evidence document is built from the earliest input
record bearing its title, and its title was not already seen. -/
theorem compileAux_mem :
    ∀ (l : List CleanRecord) (seen : List String) (d : EvidenceDoc),
      d ∈ compileAux seen l →
      d.document_title ∉ seen ∧
      ∃ r, l.find? (fun x => x.document_title == d.document_title) = some r ∧
        d = ⟨r.document_title, r.document_url, r.document_text_clean⟩ := by
  intro l
  induction l with
  | nil =>
    intro seen d h
    cases h
  | cons r rs ih =>
    intro seen d h
    simp only [compileAux] at h
    by_cases hc : seen.contains r.document_title
    · rw [if_pos hc] at h
      obtain ⟨hns, r', hfind, hd⟩ := ih seen d h
      refine ⟨hns, r', ?_, hd⟩
      rw [List.find?_cons_of_neg]
      · exact hfind
      · simp only [beq_iff_eq]
        intro heq
        rw [← heq] at hns
        exact hns (by simpa [List.contains, List.elem_eq_mem] using hc)
    · rw [if_neg hc] at h
      rcases List.mem_cons.mp h with rfl | h'
      · refine ⟨by simpa [List.contains, List.elem_eq_mem] using hc, r, ?_, rfl⟩
        rw [List.find?_cons_of_pos]
        simp
      · obtain ⟨hns, r', hfind, hd⟩ := ih (seen ++ [r.document_title]) d h'
        have hne : d.document_title ≠ r.document_title := by
          intro heq
          exact hns (List.mem_append_right _ (by simp [heq]))
        refine ⟨fun hmem => hns (List.mem_append_left _ hmem), r', ?_, hd⟩
        rw [List.find?_cons_of_neg]
        · exact hfind
        · simp only [beq_iff_eq]
          exact fun heq => hne heq.symm

/-- C2: the evidence-corpus compiler emits pairwise-distinct titles in
first-occurrence order, and each emitted document carries the title, URL
and cleaned text of the earliest input record bearing that title. -/
theorem claim_C2 (data : List CleanRecord) :
    ((DataCompilationRoutine.compile_evidence_corpus data).map (·.document_title)).Nodup ∧
    (DataCompilationRoutine.compile_evidence_corpus data).map (·.document_title) =
      firstOccurrenceTitles [] (data.map (·.document_title)) ∧
    ∀ d ∈ DataCompilationRoutine.compile_evidence_corpus data,
      ∃ r, data.find? (fun x => x.document_title == d.document_title) = some r ∧
        d.document_title = r.document_title ∧ d.document_url = r.document_url ∧
        d.document_text_clean = r.document_text_clean := by
  refine ⟨?_, compileAux_titles [] data, ?_⟩
  · rw [DataCompilationRoutine.compile_evidence_corpus, compileAux_titles]
    exact fot_nodup _ _
  · intro d hd
    obtain ⟨_, r, hfind, hd'⟩ := compileAux_mem data [] d hd
    exact ⟨r, hfind, by rw [hd'], by rw [hd'], by rw [hd']⟩

/-- Witness for C2 on a two-record input sharing one title: the single
emitted document matches the first record. -/
theorem claim_C2_witness :
    ∃ r, ([⟨1, "T", "u1", "q1", "a1", "d1"⟩, ⟨2, "T", "u2", "q2", "a2", "d2"⟩] :
        List CleanRecord).find?
        (fun x => x.document_title == (⟨"T", "u1", "d1"⟩ : EvidenceDoc).document_title) =
        some r ∧
      (⟨"T", "u1", "d1"⟩ : EvidenceDoc).document_title = r.document_title ∧
      (⟨"T", "u1", "d1"⟩ : EvidenceDoc).document_url = r.document_url ∧
      (⟨"T", "u1", "d1"⟩ : EvidenceDoc).document_text_clean = r.document_text_clean :=
  (claim_C2 [⟨1, "T", "u1", "q1", "a1", "d1"⟩, ⟨2, "T", "u2", "q2", "a2", "d2"⟩]).2.2
    ⟨"T", "u1", "d1"⟩ (by decide)

/-- C7: the QA-record compiler emits exactly one record per input clean
record, in input order; each output record's fields equal the source
record's fields, with `document_text_clean` absent (the `QARecord` type
carries every `CleanRecord` field except `document_text_clean`). -/
theorem claim_C7 (data : List CleanRecord) :
    (DataCompilationRoutine.compile_qa_records data).length = data.length ∧
    ∀ i, i < data.length →
      ∃ r q, data[i]? = some r ∧
        (DataCompilationRoutine.compile_qa_records data)[i]? = some q ∧
        q.example_id = r.example_id ∧ q.document_title = r.document_title ∧
        q.document_url = r.document_url ∧ q.question_text = r.question_text ∧
        q.short_answer = r.short_answer := by
  induction data with
  | nil =>
    refine ⟨rfl, ?_⟩
    intro i hi
    exact absurd hi (Nat.not_lt_zero i)
  | cons r rs ih =>
    refine ⟨?_, ?_⟩
    · simpa [DataCompilationRoutine.compile_qa_records] using ih.1
    · intro i hi
      cases i with
      | zero =>
        exact ⟨r, ⟨r.example_id, r.document_title, r.document_url, r.question_text,
          r.short_answer⟩, by simp, by simp [DataCompilationRoutine.compile_qa_records],
          rfl, rfl, rfl, rfl, rfl⟩
      | succ n =>
        have hn : n < rs.length := by simpa using hi
        obtain ⟨r', q', hr', hq', hf⟩ := ih.2 n hn
        exact ⟨r', q', by simpa using hr', by simpa [DataCompilationRoutine.compile_qa_records] using hq', hf⟩

/-- Witness for C7 on a singleton input at index 0. -/
theorem claim_C7_witness :
    ∃ r q, ([⟨1, "T", "u", "q", "a", "d"⟩] : List CleanRecord)[0]? = some r ∧
      (DataCompilationRoutine.compile_qa_records [⟨1, "T", "u", "q", "a", "d"⟩])[0]? = some q ∧
      q.example_id = r.example_id ∧ q.document_title = r.document_title ∧
      q.document_url = r.document_url ∧ q.question_text = r.question_text ∧
      q.short_answer = r.short_answer :=
  (claim_C7 [⟨1, "T", "u", "q", "a", "d"⟩]).2 0 (by decide)

/-- C6: the compilation orchestrator's guard is broken.  `run` tests
`os.path.exists(outfile_ec) or os.path.exists(outfile_ec)` — the
evidence-corpus path twice and the qa-records path never — so when only
the qa-records artifact exists it does not fail fast: it proceeds and
overwrites that artifact.  (The preparation orchestrator's single-artifact
guard does fail fast, third conjunct.) -/
theorem claim_C6 :
    (DataCompilationRoutine.run ⟨none, some []⟩ [⟨1, "T", "u", "q", "a", "a b"⟩]).toOption =
      some ⟨some [⟨"T", "u", "a b"⟩], some [⟨1, "T", "u", "q", "a"⟩]⟩ ∧
    some [(⟨1, "T", "u", "q", "a"⟩ : QARecord)] ≠ some ([] : List QARecord) ∧
    (DataPreprocessingRoutine.run ⟨some []⟩ true []).toOption = none :=
  ⟨by decide, by decide, by decide⟩
